import Mathlib

/-!
# Verification of the matchblade pattern-matching engine and its utilities

Shallow embedding of the matchblade TypeScript library:
the matcher engine (`matchValue`, `match`/`caseOf` dispatch from
`src/lib/match.ts`), the evolution utility (`src/lib/evolve.ts`), the tree
builder (`src/lib/list-to-tree.ts`), the promise-object resolver
(`src/lib/await-obj.ts`) and the tap-style pipeline (`src/lib/pipe-tap.ts`).

JavaScript runtime values are modelled by the inductive `Value`; numbers are
modelled as integers (all values appearing in the properties below are
integral), functions appearing as data (predicate matchers, handlers,
transform specs) are modelled as Lean functions in the respective embedding
types.  Promises are modelled in their settled form (`Except` of the
rejection reason or the resolved value).
-/

namespace Matchblade

/-- A JavaScript runtime value: the primitives (string, number, boolean,
`null`, `undefined`), arrays, plain objects (ordered own enumerable string
keys) and `Date` objects (carrying their epoch timestamp). -/
inductive Value where
  | str (s : String)
  | num (n : Int)
  | bool (b : Bool)
  | null
  | undef
  | arr (elems : List Value)
  | obj (fields : List (String × Value))
  | date (epoch : Int)
  deriving Repr

/-- A matcher as accepted by `matchValue` in `src/lib/match.ts`:
a predicate/guard function, a primitive literal, an array of matchers, or a
plain object mapping keys to matchers. -/
inductive Matcher where
  | pred (p : Value → Bool)
  | str (s : String)
  | num (n : Int)
  | bool (b : Bool)
  | null
  | undef
  | arr (elems : List Matcher)
  | obj (fields : List (String × Matcher))

/-- `isObject` from `src/lib/match.ts`:
`typeof value === 'object' && value !== null`.  In the JS runtime arrays,
plain objects, `Date`s and `null` have `typeof` `'object'`; the `!== null`
conjunct excludes `null`. -/
def isObjectV : Value → Bool
  | .arr _ => true
  | .obj _ => true
  | .date _ => true
  | _ => false

/-- `isTuple` from `src/lib/match.ts` on the value side:
`Array.isArray(value) && value.length === 2`. -/
def isTupleV : Value → Bool
  | .arr xs => xs.length == 2
  | _ => false

/-- `isPrimitive` from `src/lib/match.ts` on the matcher side:
`!['object', 'function'].includes(typeof value)`.  Note that
`typeof null === 'object'`, so the `null` matcher is NOT primitive by this
test (and predicates have `typeof` `'function'`, arrays and plain objects
`'object'`). -/
def Matcher.isPrimitiveM : Matcher → Bool
  | .pred _ => false
  | .null => false
  | .arr _ => false
  | .obj _ => false
  | _ => true

/-- `isTuple` from `src/lib/match.ts` on the matcher side. -/
def Matcher.isTupleM : Matcher → Bool
  | .arr ms => ms.length == 2
  | _ => false

/-- `isObject` from `src/lib/match.ts` on the matcher side: predicates are
functions, primitive matchers are not object-typed, the `null` matcher is
excluded by `!== null`; arrays and plain objects remain. -/
def Matcher.isObjectM : Matcher → Bool
  | .arr _ => true
  | .obj _ => true
  | _ => false

/-- JS strict equality `value === matcher` for the primitive-matcher branch
of `matchValue` (no coercion; distinct runtime types never compare equal;
reference types are not primitive matchers). -/
def primEq (value : Value) : Matcher → Bool
  | .str b => match value with | .str a => a == b | _ => false
  | .num b => match value with | .num a => a == b | _ => false
  | .bool b => match value with | .bool a => a == b | _ => false
  | .null => match value with | .null => true | _ => false
  | .undef => match value with | .undef => true | _ => false
  | _ => false

/-- The canonical array-index reading of a property key, as used by JS
property access `value[key]` on arrays: `"0"`, `"1"`, ... -/
def canonicalIndex (k : String) : Option Nat :=
  if k.data.all Char.isDigit && !k.data.isEmpty then
    let i := k.data.foldl (fun n c => n * 10 + (c.toNat - 48)) 0
    if toString i == k then some i else none
  else none

/-- JS property access `value[key]` for the value shapes the library reads:
own fields of plain objects, index properties and `length` of arrays and
strings; any absent property reads as `undefined`.  (Prototype-inherited
function-valued properties such as array methods are not modelled; no code
path of the library reads them.) -/
def getProp : Value → String → Value
  | .obj fs, k => ((fs.find? (fun kv => kv.1 == k)).map Prod.snd).getD .undef
  | .arr xs, k =>
    if k == "length" then .num xs.length
    else
      match canonicalIndex k with
      | some i => xs.getD i .undef
      | none => .undef
  | .str s, k =>
    if k == "length" then .num s.length
    else
      match canonicalIndex k with
      | some i => ((s.toList.get? i).map (fun c => .str (String.mk [c]))).getD .undef
      | none => .undef
  | _, _ => .undef

mutual

/-- `matchValue` from `src/lib/match.ts`, branch for branch:
1. a function matcher is applied as a predicate;
2. a primitive matcher (per `isPrimitive`, which excludes `null` because
   `typeof null === 'object'`) is compared by strict equality — hence the
   `null` matcher falls through every branch and yields `false`;
3. if `isTuple(matcher) && isTuple(value)` (both arrays of length exactly 2)
   the two positions are matched recursively;
4. if `isObject(matcher) && isObject(value)` then
   `Object.entries(matcher).every(([key, val]) => matchValue(value[key], val))`
   — for an array matcher the entries are its index/value pairs
   (`matchIndexed`), for a plain-object matcher its fields (`matchFields`);
5. otherwise `false`. -/
def matchValue (value : Value) (matcher : Matcher) : Bool :=
  match matcher with
  | .pred p => p value
  | .str s => primEq value (.str s)
  | .num n => primEq value (.num n)
  | .bool b => primEq value (.bool b)
  | .undef => primEq value .undef
  | .null => false
  | .arr ms =>
    match value, ms with
    | .arr [v0, v1], [m0, m1] => matchValue v0 m0 && matchValue v1 m1
    | v, ms' => isObjectV v && matchIndexed v 0 ms'
  | .obj fs => isObjectV value && matchFields value fs

/-- `Object.entries` of an array matcher paired with `value[key]` lookups:
entry `i` of the matcher array is matched against `value[String(i)]`. -/
def matchIndexed (value : Value) (i : Nat) (ms : List Matcher) : Bool :=
  match ms with
  | [] => true
  | m :: rest => matchValue (getProp value (toString i)) m && matchIndexed value (i + 1) rest

/-- `Object.entries` of a plain-object matcher paired with `value[key]`
lookups: field `(k, m)` is matched against `value[k]`. -/
def matchFields (value : Value) (fs : List (String × Matcher)) : Bool :=
  match fs with
  | [] => true
  | (k, m) :: rest => matchValue (getProp value k) m && matchFields value rest

end

mutual

/-- The `JSON.stringify` rendering used by the dispatcher's no-match error
message (`src/lib/match.ts`): strings quoted, `undefined` inside an array
serialises as `null`, object fields with `undefined` values are dropped, a
`Date` serialises as a quoted string of its time.  The source passes an
indent argument of 2; whitespace layout (and string escaping, and the exact
ISO date format) is abstracted — only the fact that the attempted values are
rendered into the message matters below. -/
def jsonRender : Value → String
  | .str s => "\"" ++ s ++ "\""
  | .num n => toString n
  | .bool b => if b then "true" else "false"
  | .null => "null"
  | .undef => "null"
  | .date t => "\"" ++ toString t ++ "\""
  | .arr xs => "[" ++ String.intercalate "," (jsonRenderList xs) ++ "]"
  | .obj fs => "\x7b" ++ String.intercalate "," (jsonRenderFields fs) ++ "\x7d"

/-- Renders the elements of an array for `jsonRender`. -/
def jsonRenderList : List Value → List String
  | [] => []
  | v :: rest => jsonRender v :: jsonRenderList rest

/-- Renders the fields of an object for `jsonRender`; fields whose value is
`undefined` are omitted, as `JSON.stringify` does. -/
def jsonRenderFields : List (String × Value) → List String
  | [] => []
  | (_, .undef) :: rest => jsonRenderFields rest
  | (k, v) :: rest => ("\"" ++ k ++ "\":" ++ jsonRender v) :: jsonRenderFields rest

end

/-- A case handler (`src/lib/match.ts`): either a function applied to the
matched argument tuple, or a static value returned unchanged. -/
inductive Handler where
  | func (f : List Value → Value)
  | static (v : Value)

/-- `isFunction(handler) ? handler(...values) : handler` from the dispatcher
in `src/lib/match.ts`. -/
def applyHandler (h : Handler) (values : List Value) : Value :=
  match h with
  | .func f => f values
  | .static v => v

/-- A `caseOf` pair: the positional matcher list and the handler. -/
abbrev MatchCase := List Matcher × Handler

/-- The indexed walk behind `predicates.every((pred, index) => ...)`. -/
def allMatchFrom (values : List Value) (i : Nat) : List Matcher → Bool
  | [] => true
  | m :: rest => matchValue (values.getD i .undef) m && allMatchFrom values (i + 1) rest

/-- `predicates.every((pred, index) => matchValue(values[index], pred))`
from `src/lib/match.ts`; an out-of-range argument position reads as
`undefined`. -/
def allMatch (predicates : List Matcher) (values : List Value) : Bool :=
  allMatchFrom values 0 predicates

/-- The message of the error thrown when no case matches:
`` `No match found for ${JSON.stringify(values, null, 2)}` ``. -/
def noMatchMessage (values : List Value) : String :=
  "No match found for " ++ jsonRender (.arr values)

/-- The dispatcher returned by `match(...cases)` in `src/lib/match.ts`:
iterate the cases in construction order; on the first case whose every
positional matcher matches the corresponding argument, apply (or return)
its handler; if no case matches, throw the no-match error.  The thrown
error is modelled as `Except.error` of its message. -/
def matchDispatch (cases : List MatchCase) (values : List Value) : Except String Value :=
  match cases with
  | [] => .error (noMatchMessage values)
  | (predicates, handler) :: rest =>
    if allMatch predicates values then .ok (applyHandler handler values)
    else matchDispatch rest values

/-! ## Evolution utility (`src/lib/evolve.ts`) -/

/-- A value of an evolve spec object: a transform function, a nested spec
(a plain object — the structural-tag `isObject` from `src/lib/utils.ts`
accepts only plain objects, not arrays or dates), or any other runtime
value (primitive, array, date), which triggers none of the guarded cases. -/
inductive Spec where
  | func (f : Value → Value)
  | obj (fields : List (String × Spec))
  | val (v : Value)

/-- The own enumerable entries of a value, as collected by an object spread
`{ ...acc }`: the fields of a plain object, the index/value pairs of an
array, nothing for dates and primitives. -/
def ownEntries : Value → List (String × Value)
  | .obj fs => fs
  | .arr xs => xs.enum.map (fun p => (toString p.1, p.2))
  | _ => []

/-- Updates key `key` in an entry list, keeping its position if present and
appending it otherwise — the JS semantics of `{ ...acc, [key]: res }`. -/
def setEntry : List (String × Value) → String → Value → List (String × Value)
  | [], k, v => [(k, v)]
  | (k0, v0) :: rest, k, v =>
    if k0 == k then (k0, v) :: rest else (k0, v0) :: setEntry rest k v

/-- `{ ...acc, [key]: res }` from the reduce step of `evolve`. -/
def setProp (acc : Value) (key : String) (res : Value) : Value :=
  .obj (setEntry (ownEntries acc) key res)

mutual

/-- The `Object.entries(specs).reduce(...)` loop of `evolve`
(`src/lib/evolve.ts`): each spec entry `(key, spec)` replaces `acc[key]`
with `fork(acc[key], spec)`; `source` is the closure-captured original
source object used by the whole-object case of `fork`. -/
def evolveGo (source : Value) (specs : List (String × Spec)) (acc : Value) : Value :=
  match specs with
  | [] => acc
  | (key, spec) :: rest =>
    evolveGo source rest (setProp acc key (forkStep source (getProp acc key) spec))

/-- The `fork` dispatcher inside `evolve`, a `match` of five `caseOf`
clauses evaluated in order; its guards decide by the runtime category of
`(prop, spec)`, so it unfolds to a case split on the spec's category:
* `caseOf([isArray, isObject], (prop, spec) => prop.map(evolve(spec)))`;
* `caseOf([isObject, isObject], (obj, spec) => evolve(spec, obj))` — the
  structural-tag `isObject` of `utils.ts` accepts plain objects only;
* `caseOf([isNotUndefined, isFunction], (prop, fn) => fn(prop))`;
* `caseOf([isUndefined, isFunction], (_, fn) => fn(source))`;
* `caseOf([_, _], (prop, _) => prop)` — the fallback returns the existing
  property value, not the spec value. -/
def forkStep (source prop : Value) (spec : Spec) : Value :=
  match spec with
  | .obj sfs =>
    match prop with
    | .arr xs => .arr (xs.map (fun x => evolveGo x sfs x))
    | .obj _ => evolveGo prop sfs prop
    | _ => prop
  | .func f =>
    match prop with
    | .undef => f source
    | _ => f prop
  | .val _ => prop

end

/-- `evolve(specs, source)` from `src/lib/evolve.ts` (the applied form; the
spec-only form merely curries). -/
def evolve (specs : List (String × Spec)) (source : Value) : Value :=
  evolveGo source specs source

/-! ## Tree builder (`src/lib/list-to-tree.ts`) -/

/-- Loose-equality-with-null test `x == null`: true exactly for `null` and
`undefined`. -/
def isNullish : Value → Bool
  | .null => true
  | .undef => true
  | _ => false

/-- JS `Map` key equality (SameValueZero) for the id values of
`listToTree`; the source constrains ids to `string | number`, for which
SameValueZero is plain equality.  (Reference identity of composite keys is
not modelled; the library never uses composite ids.) -/
def idEq : Value → Value → Bool
  | .str a, .str b => a == b
  | .num a, .num b => a == b
  | .bool a, .bool b => a == b
  | .null, .null => true
  | .undef, .undef => true
  | _, _ => false

/-- `Map.prototype.get`, over an insertion-ordered association list. -/
def mapGet (m : List (Value × α)) (k : Value) : Option α :=
  (m.find? (fun kv => idEq kv.1 k)).map Prod.snd

/-- `Map.prototype.set`: replaces the value of an existing key in place, or
appends a new key. -/
def mapSet (m : List (Value × α)) (k : Value) (v : α) : List (Value × α) :=
  match m with
  | [] => [(k, v)]
  | (k0, v0) :: rest =>
    if idEq k0 k then (k0, v) :: rest else (k0, v0) :: mapSet rest k v

/-- `String(id)` for the id values that can appear in the missing-node
error message (ids are `string | number` by the source's type bound). -/
def renderId : Value → String
  | .str s => s
  | .num n => toString n
  | .bool b => if b then "true" else "false"
  | .null => "null"
  | .undef => "undefined"
  | _ => "[object]"

/-- The recursive `build` closure of `listToTree`: look the id up in
`byId` (throwing the missing-node error if absent), recursively build the
children listed under the id in `childIdsByParentId`, and attach them
under `childProp`.  The source recursion is unbounded (it would diverge on
cyclic parent chains); `fuel` bounds the recursion depth, and any fuel at
least the list length reproduces the source on every input on which the
source terminates. -/
def buildTree (byId : List (Value × Value)) (children : List (Value × List Value))
    (childProp : String) : Nat → Value → Except String Value
  | 0, _ => .error "listToTree: recursion depth exhausted"
  | fuel + 1, id =>
    match mapGet byId id with
    | none => .error ("listToTree: missing node for id " ++ renderId id)
    | some node => do
      let kids ← (mapGet children id |>.getD []).mapM (buildTree byId children childProp fuel)
      pure (setProp node childProp (.arr kids))

/-- `listToTree(idProp, parentProp, childProp)(list)` from
`src/lib/list-to-tree.ts` (the adopted map-based variant):
`byId` maps each record's id to the record; the root is the first record
whose parent reference is `== null`, and if none exists (or its id is
itself nullish) the missing-root error is thrown; `childIdsByParentId`
groups the ids of non-root records under their parent reference; the tree
is built recursively from the root id. -/
def listToTree (idProp parentProp childProp : String) (list : List Value) :
    Except String Value :=
  let byId := list.foldl (fun acc item => mapSet acc (getProp item idProp) item) []
  match (list.find? (fun item => isNullish (getProp item parentProp))).map
      (fun item => getProp item idProp) with
  | none => .error "listToTree: no root node found"
  | some rootId =>
    if isNullish rootId then .error "listToTree: no root node found"
    else
      let children := list.foldl (fun acc item =>
        let parentId := getProp item parentProp
        if isNullish parentId then acc
        else
          let childId := getProp item idProp
          match mapGet acc parentId with
          | some kids => mapSet acc parentId (kids ++ [childId])
          | none => mapSet acc parentId [childId]) []
      buildTree byId children childProp (list.length + 1) rootId

/-! ## Promise-object resolver (`src/lib/await-obj.ts`) -/

/-- A property value of the object passed to `awaitObj`: either a plain
value, or a promise modelled in its settled form — resolved with a value
or rejected with a reason. -/
inductive PropVal where
  | plain (v : Value)
  | prom (p : Except Value Value)

/-- `isPromise(value) ? await value : value` for one property. -/
def resolveProp : PropVal → Except Value Value
  | .plain v => .ok v
  | .prom p => p

/-- `awaitObj` from `src/lib/await-obj.ts`: map every key to its awaited
value (`Promise.all(keys.map(...))`) and rebuild the object with
`Object.fromEntries`, preserving key order.  With the per-key promises in
settled form, `Promise.all` yields the entry list in key order when every
property resolves, and rejects with the first rejection in key order
otherwise, never producing a partial object — i.e. first-error collection
over the entry list. -/
def awaitObj : List (String × PropVal) → Except Value (List (String × Value))
  | [] => .ok []
  | (k, pv) :: rest =>
    match resolveProp pv with
    | .error e => .error e
    | .ok v =>
      match awaitObj rest with
      | .error e => .error e
      | .ok tail => .ok ((k, v) :: tail)

/-- Whether a property's eventual value resolves (is a plain value or a
resolved promise). -/
def propResolved : PropVal → Bool
  | .plain _ => true
  | .prom (.ok _) => true
  | .prom (.error _) => false

/-- The resolved value of a resolving property (default for a rejected
one, never used below). -/
def resolvedValue : PropVal → Value
  | .prom (.error _) => .undef
  | .plain v => v
  | .prom (.ok v) => v

/-- The reason of the first rejected property in key order, if any. -/
def firstRejection (obj : List (String × PropVal)) : Option Value :=
  obj.findSome? (fun kv =>
    match kv.2 with
    | .prom (.error e) => some e
    | _ => none)

/-! ## Tap-style pipeline (`src/lib/pipe-tap.ts`) -/

/-- `pipeTap(fn1, ...fns)` from `src/lib/pipe-tap.ts`, synchronous case:
`functions.reduce((result, currentFn) => currentFn(arg, result), fn1(arg, undefined))`.
Every step receives the pipeline's original argument `arg` first and the
previous step's result second; the first step's second argument is the
`undefined` sentinel, modelled as `none`.  (When no step returns a
promise, the promise branch of the reduce never fires; promise chaining
adds only the `await` between steps.) -/
def pipeTap {α β : Type} (fn1 : α → Option β → β) (fns : List (α → Option β → β)) : α → β :=
  fun arg => fns.foldl (fun result currentFn => currentFn arg (some result)) (fn1 arg none)

/-! ## Concrete matchers used by the theorems -/

/-- The `isOdd` guard of `src/lib/match.test.ts`:
`isNumber(value) && value % 2 === 1`. -/
def isOddPred : Matcher :=
  .pred (fun v => match v with | .num n => n % 2 == 1 | _ => false)

/-- The `isString` guard of `src/lib/match.test.ts`:
`typeof value === 'string'`. -/
def isStringPred : Matcher :=
  .pred (fun v => match v with | .str _ => true | _ => false)

/-- The wildcard matcher `_` of `src/lib/utils.ts`: `() => true`. -/
def wildcard : Matcher := .pred (fun _ => true)

/-! ## Theorems -/

/-- `matchFields` is the conjunction, over the matcher object's own
entries, of the recursive match of `value[key]` against the entry. -/
theorem matchFields_eq_all (v : Value) (fs : List (String × Matcher)) :
    matchFields v fs = fs.all (fun kv => matchValue (getProp v kv.1) kv.2) := by
  induction fs with
  | nil => simp [matchFields]
  | cons hd tl ih =>
    rcases hd with ⟨k, m⟩
    simp [matchFields, ih]

/-- C1: the claim says a tuple matcher `[P1, P2]` never matches an input
array of length 3 even when `P1`, `P2` match the first two elements.  The
code disagrees: `isTuple(value)` fails for length 3, so the pair
`(array matcher, array value)` falls through to the structural-object
branch, which compares the matcher's index entries `"0"`, `"1"` against
`value["0"]`, `value["1"]` — prefix semantics.  Replaying the repository's
own test `does not treat tuple patterns as prefix matches`
(`src/lib/match.test.ts`): matcher `[isOdd, isString]` against `[1, '2', 3]`
yields a match, and the two-case dispatcher of that test returns `'match'`
where the test asserts `'no match'`.  The code contradicts its own test, so
the claim is right and the code has a bug. -/
theorem c1_tuple_length_mismatch_bug :
    matchValue (.arr [.num 1, .str "2", .num 3]) (.arr [isOddPred, isStringPred]) = true ∧
    matchDispatch
      [([.arr [isOddPred, isStringPred]], .static (.str "match")),
       ([wildcard], .static (.str "no match"))]
      [.arr [.num 1, .str "2", .num 3]] = .ok (.str "match") := by
  have h1 : matchValue (.arr [.num 1, .str "2", .num 3]) (.arr [isOddPred, isStringPred]) = true := by
    simp [matchValue, matchIndexed, getProp, isObjectV, canonicalIndex, isOddPred, isStringPred]
    decide
  refine ⟨h1, ?_⟩
  simp [matchDispatch, allMatch, allMatchFrom, applyHandler, h1]

/-- C2: the dispatcher returns the handler application (or the static
handler value) of the earliest case, in construction order, all of whose
positional matchers match; later matching cases are never consulted.
`List.find?` selects exactly that earliest case. -/
theorem c2_first_match_wins (cases : List MatchCase) (values : List Value)
    (c : MatchCase) (h : cases.find? (fun cs => allMatch cs.1 values) = some c) :
    matchDispatch cases values = .ok (applyHandler c.2 values) := by
  induction cases with
  | nil => simp [List.find?] at h
  | cons hd tl ih =>
    rcases hd with ⟨preds, handler⟩
    by_cases hm : allMatch preds values
    · simp [List.find?, hm] at h
      subst h
      simp [matchDispatch, hm]
    · simp [List.find?, hm] at h
      simpa [matchDispatch, hm] using ih h

/-- Witness for C2: with two cases that both match, the dispatcher returns
the first case's (static) handler value. -/
theorem c2_first_match_wins_witness :
    matchDispatch
      [([wildcard], .static (.str "first")), ([wildcard], .static (.str "second"))]
      [.num 0] = .ok (.str "first") :=
  c2_first_match_wins _ _ ([wildcard], .static (.str "first"))
    (by simp [List.find?, allMatch, allMatchFrom, matchValue, wildcard])

/-- C3 counterexample: the claim says a plain-object matcher never matches
an array or a Date.  But `isObject` in `src/lib/match.ts` is
`typeof value === 'object' && value !== null`, which arrays and Dates
satisfy, so the empty structural matcher `{}` matches both. -/
theorem c3_object_matcher_counterexample :
    matchValue (.arr [.num 1]) (.obj []) = true ∧
    matchValue (.date 0) (.obj []) = true := by
  constructor <;> simp [matchValue, matchFields, isObjectV]

/-- C3 (amended): arrays and Dates are object-typed at runtime and are
treated as structural-object match targets; the structural rule applies to
them exactly as to plain objects: every own key of the matcher must match
the corresponding property of the value. -/
theorem c3_object_matcher_amended (fs : List (String × Matcher)) (xs : List Value) (t : Int) :
    matchValue (.arr xs) (.obj fs)
      = fs.all (fun kv => matchValue (getProp (.arr xs) kv.1) kv.2) ∧
    matchValue (.date t) (.obj fs)
      = fs.all (fun kv => matchValue (getProp (.date t) kv.1) kv.2) := by
  constructor <;> simp [matchValue, isObjectV, matchFields_eq_all]

/-- C4: for a plain-object matcher against a plain-object value, the match
holds iff every own entry `(K, M[K])` of the matcher matches `value[K]`
(`getProp` reads a missing key as `undefined`); in particular `{a: 1}`
matches `{a: 1, b: 99}` (extra keys ignored) but not `{b: 99}` (missing
required key: `undefined` is not `1`). -/
theorem c4_object_subset_rule (mfs : List (String × Matcher)) (vfs : List (String × Value)) :
    matchValue (.obj vfs) (.obj mfs)
      = mfs.all (fun kv => matchValue (getProp (.obj vfs) kv.1) kv.2) ∧
    matchValue (.obj [("a", .num 1), ("b", .num 99)]) (.obj [("a", .num 1)]) = true ∧
    matchValue (.obj [("b", .num 99)]) (.obj [("a", .num 1)]) = false := by
  refine ⟨by simp [matchValue, isObjectV, matchFields_eq_all], ?_, ?_⟩ <;>
    simp [matchValue, matchFields, getProp, primEq, isObjectV]

/-- C5: a dispatcher built from an empty case list never returns a value:
it always throws the no-match error, whose message embeds the
`JSON.stringify` rendering of the attempted argument values. -/
theorem c5_empty_case_list_throws (values : List Value) :
    matchDispatch [] values
      = .error ("No match found for " ++ jsonRender (.arr values)) := by
  simp [matchDispatch, noMatchMessage]

/-- Witness-free check of C5 at a concrete input is not required (the
theorem has no propositional hypothesis), but the no-match message is
exercised concretely below for the record. -/
theorem c5_concrete_message :
    matchDispatch [] [.num 1, .str "x"]
      = .error "No match found for [1,\"x\"]" := by
  simp [matchDispatch, noMatchMessage, jsonRender, jsonRenderList]
  decide

/-- C6 counterexample: the claim says a spec value that is neither a
function nor a nested spec object becomes the literal new value for its
key.  The code's fallback case `caseOf([_, _], (prop, _) => prop)` returns
the existing property instead: spec `{a: 2}` on source `{a: 1}` yields
`{a: 1}`, not `{a: 2}`. -/
theorem c6_literal_spec_counterexample :
    evolve [("a", Spec.val (.num 2))] (.obj [("a", .num 1)]) = .obj [("a", .num 1)] ∧
    getProp (evolve [("a", Spec.val (.num 2))] (.obj [("a", .num 1)])) "a" ≠ .num 2 := by
  have h : evolve [("a", Spec.val (.num 2))] (.obj [("a", .num 1)]) = .obj [("a", .num 1)] := by
    simp [evolve, evolveGo, forkStep, setProp, setEntry, ownEntries, getProp]
  refine ⟨h, ?_⟩
  rw [h]
  simp [getProp]

/-- C6 (amended): for a spec key `K` whose spec value is neither a function
nor a nested spec object, `evolve` writes back the source's existing value
for `K` unchanged (the fallback returns the original property; the literal
spec value is ignored). -/
theorem c6_literal_spec_amended (K : String) (v : Value) (src : Value) :
    evolve [(K, Spec.val v)] src = setProp src K (getProp src K) := by
  simp [evolve, evolveGo, forkStep]

/-- C7: the claim (and the code's own comment `Keep this explicit and
loud`) says a dangling parent reference makes `listToTree` throw.  But the
missing-node check inside `build` is unreachable for dangling references:
every id passed to `build` comes from an actual record, so a record whose
parent matches no id is silently dropped.  With records
`{id:1, parent:null}` and `{id:2, parent:99}` the call succeeds and
returns a root with no children — record 2 is gone and no error is
raised. -/
theorem c7_dangling_reference_dropped :
    listToTree "id" "parent" "children"
      [.obj [("id", .num 1), ("parent", .null)],
       .obj [("id", .num 2), ("parent", .num 99)]]
    = .ok (.obj [("id", .num 1), ("parent", .null), ("children", .arr [])]) := rfl

/-- C8: `awaitObj` resolves to the object with the same keys in the same
order, every promise-valued property replaced by its resolved value and
every plain property passed through, provided every property resolves;
and it rejects with the first rejection in key order when one exists (no
partial result). -/
theorem c8_awaitObj_resolution (obj : List (String × PropVal)) :
    (obj.all (fun kv => propResolved kv.2) = true →
      awaitObj obj = .ok (obj.map (fun kv => (kv.1, resolvedValue kv.2)))) ∧
    (∀ e, firstRejection obj = some e → awaitObj obj = .error e) ∧
    (obj.map (fun kv => (kv.1, resolvedValue kv.2))).map Prod.fst = obj.map Prod.fst := by
  induction obj with
  | nil => simp [awaitObj, firstRejection]
  | cons hd tl ih =>
    rcases hd with ⟨k, pv⟩
    refine ⟨?_, ?_, ?_⟩
    · intro hall
      simp [List.all_cons] at hall
      have htl := ih.1 (by simpa using hall.2)
      cases pv with
      | plain v => simp [awaitObj, resolveProp, resolvedValue, htl]
      | prom p =>
        cases p with
        | ok v => simp [awaitObj, resolveProp, resolvedValue, htl]
        | error e => simp [propResolved] at hall
    · intro e he
      cases pv with
      | plain v =>
        simp [firstRejection, List.findSome?] at he
        have htl := ih.2.1 e (by simpa [firstRejection] using he)
        simp [awaitObj, resolveProp, htl]
      | prom p =>
        cases p with
        | ok v =>
          simp [firstRejection, List.findSome?] at he
          have htl := ih.2.1 e (by simpa [firstRejection] using he)
          simp [awaitObj, resolveProp, htl]
        | error e0 =>
          simp [firstRejection, List.findSome?] at he
          subst he
          simp [awaitObj, resolveProp]
    · simp [ih.2.2]

/-- Witness for C8, on the spec's own examples: `{a: resolved(1), b: 2}`
resolves to `{a: 1, b: 2}`, and `{a: resolved(1), b: rejected("X")}`
rejects with `"X"`. -/
theorem c8_awaitObj_resolution_witness :
    awaitObj [("a", .prom (.ok (.num 1))), ("b", .plain (.num 2))]
      = .ok [("a", .num 1), ("b", .num 2)] ∧
    awaitObj [("a", .prom (.ok (.num 1))), ("b", .prom (.error (.str "X")))]
      = .error (.str "X") :=
  ⟨(c8_awaitObj_resolution [("a", .prom (.ok (.num 1))), ("b", .plain (.num 2))]).1 rfl,
   (c8_awaitObj_resolution [("a", .prom (.ok (.num 1))), ("b", .prom (.error (.str "X")))]).2.1
     (.str "X") rfl⟩

/-- One pipeline step, instrumented to log the argument pair it receives
alongside computing the underlying step's result.  Running `pipeTap` over
instrumented steps shows exactly which `(initial, previous)` pairs the
reduce of `src/lib/pipe-tap.ts` hands to each step. -/
def tapInstrument (f : Int → Option Int → Int) :
    Int → Option (Int × List (Int × Option Int)) → Int × List (Int × Option Int) :=
  fun init prev =>
    match prev with
    | none => (f init none, [(init, none)])
    | some (p, log) => (f init (some p), log ++ [(init, some p)])

/-- `f1 = (init) => init + 1` from the spec's tap-pipe example. -/
def tapF1 : Int → Option Int → Int := fun init _ => init + 1

/-- `f2 = (init, prev) => prev + 10`; the `undefined` case of `prev` is
defaulted (the theorem's log shows it is never exercised). -/
def tapF2 : Int → Option Int → Int := fun _ prev => prev.getD 0 + 10

/-- `f3 = (init, prev) => prev * 2`; the `undefined` case of `prev` is
defaulted (the theorem's log shows it is never exercised). -/
def tapF3 : Int → Option Int → Int := fun _ prev => prev.getD 0 * 2

/-- C9: the tap pipeline of `f1`, `f2`, `f3` applied to 10 returns 42, and
the logged argument pairs show that every step received the original input
10 as its first argument and that the first step received the no-previous
sentinel (`undefined`, modelled `none`) as its second argument. -/
theorem c9_pipeTap_order :
    pipeTap (tapInstrument tapF1) [tapInstrument tapF2, tapInstrument tapF3] 10
      = (42, [(10, none), (10, some 11), (10, some 21)]) := rfl

/-- C10: the empty-object matcher `{}` matches exactly the values that
pass the runtime object test of `src/lib/match.ts`
(`typeof value === 'object' && value !== null`): plain objects, arrays and
Dates match (the universal check over the matcher's own keys is vacuous),
while every primitive — including `null` and `undefined` — does not. -/
theorem c10_empty_object_matcher :
    (∀ v, matchValue v (.obj []) = isObjectV v) ∧
    matchValue (.obj [("x", .num 5)]) (.obj []) = true ∧
    matchValue (.arr [.num 1, .num 2]) (.obj []) = true ∧
    matchValue (.date 123) (.obj []) = true ∧
    matchValue (.num 7) (.obj []) = false ∧
    matchValue (.str "s") (.obj []) = false ∧
    matchValue (.bool true) (.obj []) = false ∧
    matchValue .null (.obj []) = false ∧
    matchValue .undef (.obj []) = false := by
  refine ⟨fun v => ?_, ?_, ?_, ?_, ?_, ?_, ?_, ?_, ?_⟩ <;>
    simp [matchValue, matchFields, isObjectV]

end Matchblade
